import Mathlib

/-!
Verification of the iCloud multi-agent backup helper
(`src/icloud_multi_agent`): a shallow embedding of the policy gate, the
authentication agent, the three backup sources (mock fixture, MobileSync
local-sync, CloudBackup remote) and the heuristic payload parser, with
theorems settling the specification claims.

External collaborators (the real filesystem, the `requests` transport, the
`icloudpy` service object, `plistlib`) are modelled as explicit parameters;
Python standard-library primitives used by the code (`datetime`,
`float`/`int` string conversion, `str.replace`) are modelled by executable
Lean functions restricted to the value shapes the code exercises, as
documented on each definition.
-/

namespace ICloudMA

/-! ## Python string / digit primitives -/

/-- The ten ASCII digit characters, as produced by decimal formatting. -/
def dchar (k : Nat) : Char := Char.ofNat (48 + k)

/-- Numeric value of an ASCII digit character. -/
def dval (c : Char) : Nat := c.toNat - 48

/-- Is the character an ASCII decimal digit? (Model of `str.isdigit` for the
ASCII range; the code only meets ASCII payloads.) -/
def isDig (c : Char) : Bool := 48 ≤ c.toNat && c.toNat ≤ 57

/-- Zero-padded two-digit rendering, as `datetime.isoformat` emits. -/
def pad2 (n : Nat) : List Char := [dchar (n / 10 % 10), dchar (n % 10)]

/-- Zero-padded four-digit rendering (years in `isoformat`). -/
def pad4 (n : Nat) : List Char :=
  [dchar (n / 1000 % 10), dchar (n / 100 % 10), dchar (n / 10 % 10), dchar (n % 10)]

/-- Zero-padded six-digit rendering (microseconds in `isoformat`). -/
def pad6 (n : Nat) : List Char :=
  [dchar (n / 100000 % 10), dchar (n / 10000 % 10), dchar (n / 1000 % 10),
   dchar (n / 100 % 10), dchar (n / 10 % 10), dchar (n % 10)]

/-- Model of `str.replace("Z", "+00:00")`: the pattern is a single character,
so the replacement acts independently on every `Z` of the string. -/
def replaceZChars : List Char → List Char
  | [] => []
  | c :: cs =>
    if c = 'Z' then '+' :: '0' :: '0' :: ':' :: '0' :: '0' :: replaceZChars cs
    else c :: replaceZChars cs

/-- `str.replace("Z", "+00:00")` on strings. -/
def replaceZ (s : String) : String := ⟨replaceZChars s.data⟩

/-- The ASCII whitespace stripped by Python `str.strip()` (tab, LF, VT, FF,
CR, space; unicode spaces do not occur in the payloads in scope). -/
def isPySpace (c : Char) : Bool := (9 ≤ c.toNat && c.toNat ≤ 13) || c.toNat = 32

/-- Model of `str.strip()`. -/
def pyStrip (s : String) : String :=
  ⟨((s.data.dropWhile isPySpace).reverse.dropWhile isPySpace).reverse⟩

/-- Model of `str.lower()` (ASCII case folding; the key names in scope are
ASCII). -/
def pyLower (s : String) : String := ⟨s.data.map Char.toLower⟩

/-- Does the string consist of decimal digits only (and is nonempty)?
Model of `str.isdigit` restricted to ASCII. -/
def allDigits (s : String) : Bool := s.data ≠ [] && s.data.all isDig

/-! ## Model of `datetime` (UTC only, microsecond precision)

The code uses `datetime.fromtimestamp(_, tz=timezone.utc)`,
`datetime.fromisoformat` and `datetime.isoformat`.  We model aware and naive
datetimes with an optional UTC-offset in minutes. -/

structure PyDateTime where
  year : Nat
  month : Nat
  day : Nat
  hour : Nat
  minute : Nat
  second : Nat
  microsecond : Nat
  /-- Offset of the attached timezone in minutes; `none` for a naive value. -/
  offset : Option Int
deriving Repr, DecidableEq

/-- Gregorian leap-year rule, as `datetime` validates dates. -/
def isLeap (y : Nat) : Bool := (y % 4 = 0 && y % 100 ≠ 0) || y % 400 = 0

/-- Days in a month of the proleptic Gregorian calendar. -/
def daysInMonth (y m : Nat) : Nat :=
  if m = 2 then (if isLeap y then 29 else 28)
  else if m = 4 || m = 6 || m = 9 || m = 11 then 30
  else 31

/-- Civil date from a count of days since 1970-01-01 (proleptic Gregorian);
the standard era-based conversion used to model `datetime.fromtimestamp`. -/
def civilFromDays (z0 : Int) : Int × Nat × Nat :=
  let z := z0 + 719468
  let era : Int := (if 0 ≤ z then z else z - 146096) / 146097
  let doe : Int := z - era * 146097
  let yoe : Int := (doe - doe / 1460 + doe / 36524 - doe / 146096) / 365
  let y : Int := yoe + era * 400
  let doy : Int := doe - (365 * yoe + yoe / 4 - yoe / 100)
  let mp : Int := (5 * doy + 2) / 153
  let d : Int := doy - (153 * mp + 2) / 5 + 1
  let m : Int := mp + (if mp < 10 then 3 else -9)
  (y + (if m ≤ 2 then 1 else 0), m.toNat, d.toNat)

/-- Earliest second representable by `datetime` (0001-01-01T00:00:00 UTC). -/
def minEpochSecond : Int := -62135596800

/-- Latest second representable by `datetime` (9999-12-31T23:59:59 UTC). -/
def maxEpochSecond : Int := 253402300799

/-- Model of `datetime.fromtimestamp(s, tz=timezone.utc)` for a whole number
of seconds plus microseconds; `none` when the year falls outside 1..9999, in
which case the real call raises and the caller falls back to `str(value)`. -/
def fromTimestampUTC (s : Int) (micro : Nat) : Option PyDateTime :=
  if s < minEpochSecond || maxEpochSecond < s then none
  else
    let days : Int := s / 86400 - (if s % 86400 < 0 then 1 else 0)
    let sod : Int := s - days * 86400
    let c := civilFromDays days
    some
      { year := c.1.toNat, month := c.2.1, day := c.2.2,
        hour := sod.toNat / 3600, minute := sod.toNat / 60 % 60,
        second := sod.toNat % 60, microsecond := micro, offset := some 0 }

/-- Model of `datetime.isoformat`: `YYYY-MM-DDTHH:MM:SS[.ffffff][±HH:MM]`. -/
def isoFormatChars (dt : PyDateTime) : List Char :=
  pad4 dt.year ++ '-' :: pad2 dt.month ++ '-' :: pad2 dt.day ++
    'T' :: pad2 dt.hour ++ ':' :: pad2 dt.minute ++ ':' :: pad2 dt.second ++
    (if dt.microsecond = 0 then [] else '.' :: pad6 dt.microsecond) ++
    (match dt.offset with
     | none => []
     | some off =>
       (if off < 0 then '-' else '+') ::
         pad2 (off.natAbs / 60) ++ ':' :: pad2 (off.natAbs % 60))

def isoFormat (dt : PyDateTime) : String := ⟨isoFormatChars dt⟩

/-! ### Model of `datetime.fromisoformat`

`datetime.fromisoformat` (Python ≤ 3.10) accepts
`YYYY-MM-DD[*HH[:MM[:SS[.fff[fff]]]][±HH:MM[:SS[.ffffff]]]]` with an
arbitrary one-character separator `*`.  We model the subset that the
adapter's inputs exercise: a full date, optionally followed by a separator
and `HH:MM:SS`, an optional 3- or 6-digit fraction, and an optional
`±HH:MM` offset.  Inputs outside this subset are reported unparseable. -/

/-- Read exactly `n` ASCII digits, returning their value and the rest. -/
def readDigits : Nat → List Char → Option (Nat × List Char)
  | 0, cs => some (0, cs)
  | _ + 1, [] => none
  | n + 1, c :: cs =>
    if isDig c then
      match readDigits n cs with
      | some (v, rest) => some (dval c * 10 ^ n + v, rest)
      | none => none
    else none

/-- Require a specific character at the head. -/
def expectChar (c : Char) : List Char → Option (List Char)
  | [] => none
  | c' :: cs => if c' = c then some cs else none

/-- Parse the optional trailing `±HH:MM` offset. -/
def readOffset : List Char → Option (Option Int × List Char)
  | [] => some (none, [])
  | c :: cs =>
    if c = '+' || c = '-' then
      match readDigits 2 cs with
      | some (oh, r1) =>
        match expectChar ':' r1 with
        | some r2 =>
          match readDigits 2 r2 with
          | some (om, r3) =>
            if oh ≤ 23 && om ≤ 59 then
              some (some ((if c = '-' then -1 else 1) * (oh * 60 + om) : Int), r3)
            else none
          | none => none
        | none => none
      | none => none
    else none

/-- Parse the optional `.fff` / `.ffffff` fraction into microseconds. -/
def readFraction : List Char → Option (Nat × List Char)
  | [] => some (0, [])
  | c :: cs =>
    if c = '.' then
      match readDigits 6 cs with
      | some (v, rest) => some (v, rest)
      | none =>
        match readDigits 3 cs with
        | some (v, rest) => some (v * 1000, rest)
        | none => none
    else some (0, c :: cs)

/-- Parse `HH:MM:SS[.ffffff][±HH:MM]` after the separator. -/
def readTime (cs : List Char) : Option (Nat × Nat × Nat × Nat × Option Int) :=
  match readDigits 2 cs with
  | none => none
  | some (h, r1) =>
    match expectChar ':' r1 with
    | none => none
    | some r2 =>
      match readDigits 2 r2 with
      | none => none
      | some (mi, r3) =>
        match expectChar ':' r3 with
        | none => none
        | some r4 =>
          match readDigits 2 r4 with
          | none => none
          | some (s, r5) =>
            match readFraction r5 with
            | none => none
            | some (micro, r6) =>
              match readOffset r6 with
              | none => none
              | some (off, r7) =>
                if r7 = [] && h ≤ 23 && mi ≤ 59 && s ≤ 59 then
                  some (h, mi, s, micro, off)
                else none

/-- Model of `datetime.fromisoformat` on the documented subset. -/
def fromIsoChars (cs : List Char) : Option PyDateTime :=
  match readDigits 4 cs with
  | none => none
  | some (y, r1) =>
    match expectChar '-' r1 with
    | none => none
    | some r2 =>
      match readDigits 2 r2 with
      | none => none
      | some (m, r3) =>
        match expectChar '-' r3 with
        | none => none
        | some r4 =>
          match readDigits 2 r4 with
          | none => none
          | some (d, r5) =>
            if ¬(1 ≤ y && 1 ≤ m && m ≤ 12 && 1 ≤ d && d ≤ daysInMonth y m) then
              none
            else
              match r5 with
              | [] => some ⟨y, m, d, 0, 0, 0, 0, none⟩
              | _sep :: rest =>
                match readTime rest with
                | none => none
                | some (h, mi, s, micro, off) =>
                  some ⟨y, m, d, h, mi, s, micro, off⟩

def fromIso (s : String) : Option PyDateTime := fromIsoChars s.data

/-! ## Model of Python `float(str)` literals

`_parse_int` evaluates `int(float(cleaned))`.  We model the `float` string
grammar on the forms the payloads exercise: optional sign, then either a
decimal literal `digits[.digits]` / `.digits` (valued by its truncation
toward zero, exact for the magnitudes involved), or the special words
`inf` / `infinity` / `nan` (case-insensitive).  Exponent forms and digit
underscores are outside the modelled subset. -/

inductive PyFloatLit where
  /-- A finite value, recorded by its truncation toward zero (`int(float _)`). -/
  | finite (trunc : Int)
  | infinite (neg : Bool)
  | nan
deriving Repr, DecidableEq

/-- Value of a digit run. -/
def digitsVal (cs : List Char) : Nat := cs.foldl (fun a c => a * 10 + dval c) 0

/-- Unsigned decimal float literal, valued by truncation toward zero. -/
def parseUnsignedFloat (cs : List Char) : Option Nat :=
  let ip := cs.takeWhile isDig
  let rest := cs.dropWhile isDig
  match rest with
  | [] => if ip.isEmpty then none else some (digitsVal ip)
  | '.' :: frac =>
    if (ip.isEmpty && frac.isEmpty) || ¬frac.all isDig then none
    else some (digitsVal ip)
  | _ => none

def pyFloatOfString (s : String) : Option PyFloatLit :=
  let cs := s.data
  let signBody : Bool × List Char :=
    match cs with
    | '+' :: t => (false, t)
    | '-' :: t => (true, t)
    | t => (false, t)
  let neg := signBody.1
  let body := signBody.2
  let lower := body.map Char.toLower
  if lower = "inf".data || lower = "infinity".data then some (.infinite neg)
  else if lower = "nan".data then some .nan
  else
    match parseUnsignedFloat body with
    | some v => some (.finite (if neg then -(v : Int) else (v : Int)))
    | none => none

/-! ## JSON values (`response.json()` payloads)

Python objects produced by JSON decoding: `None`, booleans, numbers
(modelled as integers — every numeric value the claims exercise is
integral), strings, lists and dicts.  Dicts are association lists with
distinct keys in insertion order, matching `dict` iteration. -/

inductive Json where
  | null
  | bool (b : Bool)
  | num (n : Int)
  | str (s : String)
  | arr (elems : List Json)
  | obj (fields : List (String × Json))
deriving Repr, Inhabited

/-- `node.get(key)`: `none` models Python `None` for a missing key. -/
def Json.get : Json → String → Option Json
  | .obj fields, k => (fields.find? (fun kv => kv.1 = k)).map (·.2)
  | _, _ => none

/-- Python truthiness of a JSON-decoded value. -/
def Json.truthy : Json → Bool
  | .null => false
  | .bool b => b
  | .num n => n ≠ 0
  | .str s => s ≠ ""
  | .arr xs => ¬xs.isEmpty
  | .obj fs => ¬fs.isEmpty

mutual
/-- Model of Python `repr` on JSON-decoded values (string escaping is not
modelled; no payload in scope needs it). -/
def pyRepr : Json → String
  | .null => "None"
  | .bool true => "True"
  | .bool false => "False"
  | .num n => toString n
  | .str s => ⟨Char.ofNat 39 :: s.data ++ [Char.ofNat 39]⟩
  | .arr xs => "[" ++ pyReprList xs ++ "]"
  | .obj fs => "\x7b" ++ pyReprObj fs ++ "\x7d"

def pyReprList : List Json → String
  | [] => ""
  | [x] => pyRepr x
  | x :: y :: rest => pyRepr x ++ ", " ++ pyReprList (y :: rest)

def pyReprObj : List (String × Json) → String
  | [] => ""
  | [(k, v)] => pyRepr (.str k) ++ ": " ++ pyRepr v
  | (k, v) :: p :: rest => pyRepr (.str k) ++ ": " ++ pyRepr v ++ ", " ++ pyReprObj (p :: rest)
end

/-- Model of Python `str` on JSON-decoded values. -/
def pyStr : Json → String
  | .null => "None"
  | .bool true => "True"
  | .bool false => "False"
  | .num n => toString n
  | .str s => s
  | .arr xs => pyRepr (.arr xs)
  | .obj fs => pyRepr (.obj fs)

/-! ## `_parse_int` and `_normalise_timestamp`
(`agents/icloud_api_agent.py`) -/

/-- The one exception `_parse_int` can let escape: `int(float(s))` raises
`OverflowError` on an infinite value and the `except` clause catches only
`ValueError` and `TypeError`. -/
inductive PyExn where
  | overflowError
deriving Repr, DecidableEq

/-- Embedding of `_parse_int`.  `None` → 0; booleans are `int` instances
(`int(True) = 1`); integers pass through; anything else is stringified,
stripped, and fed to `int(float(_))` where a plain decimal truncates, `nan`
raises a caught `ValueError` (→ 0), an unparseable string raises a caught
`ValueError` (→ 0), and `inf`/`infinity` raises an *uncaught*
`OverflowError`. -/
def parse_int : Json → Except PyExn Int
  | .null => .ok 0
  | .bool b => .ok (if b then 1 else 0)
  | .num n => .ok n
  | v =>
    let cleaned := pyStrip (pyStr v)
    if cleaned = "" then .ok 0
    else
      match pyFloatOfString cleaned with
      | some (.finite q) => .ok q
      | some (.infinite _) => .error .overflowError
      | some .nan => .ok 0
      | none => .ok 0

/-- The numeric branch of `_normalise_timestamp`: values above `10^12` are
taken as milliseconds (Python divides the float by 1000; for an integer
input this yields whole seconds plus a whole number of microseconds), then
`datetime.fromtimestamp(_, tz=timezone.utc).isoformat()`; a value outside
the representable `datetime` range raises and falls back to `str(value)`. -/
def normaliseEpoch (n : Int) : String :=
  let secs : Int := if n > 1000000000000 then n / 1000 else n
  let micro : Nat := if n > 1000000000000 then ((n % 1000) * 1000).toNat else 0
  match fromTimestampUTC secs micro with
  | some dt => isoFormat dt
  | none => toString n

/-- Embedding of `_normalise_timestamp`.  Strings are stripped, `Z` is
rewritten to `+00:00`, and `datetime.fromisoformat` is attempted; on
failure an all-digit string is re-dispatched as an integer timestamp and
any other string is returned as stripped; numbers (booleans included,
being `int` instances) go through the epoch branch; remaining values
stringify. -/
def normalise_timestamp : Json → String
  | .null => ""
  | .str sv =>
    let cleaned := pyStrip sv
    if cleaned = "" then ""
    else
      match fromIso (replaceZ cleaned) with
      | some dt => isoFormat dt
      | none =>
        if allDigits cleaned then normaliseEpoch (digitsVal cleaned.data : Nat)
        else cleaned
  | .num n => normaliseEpoch n
  | .bool b => normaliseEpoch (if b then 1 else 0)
  | v => pyStr v

/-! ## Snapshot-detection helpers (`_maybe_snapshot` and friends) -/

/-- Embedding of `_maybe_snapshot`: lowercased keys intersect the snapshot
identifier markers. -/
def maybe_snapshot (node : Json) : Bool :=
  match node with
  | .obj fields =>
    fields.any fun kv =>
      pyLower kv.1 = "snapshotid" || pyLower kv.1 = "snapshotuuid" ||
        pyLower kv.1 = "snapshotguid"
  | _ => false

/-- Embedding of `_contains_snapshots`: some nested-snapshot key holds a
nonempty list. -/
def contains_snapshots (node : Json) : Bool :=
  ["snapshots", "snapshotList", "snapshotInfos", "snapshotInfoList"].any fun k =>
    match node.get k with
    | some (.arr xs) => ¬xs.isEmpty
    | _ => false

/-- `node.get(key) or node.get(key.lower())` — Python `or` falls through on
falsy values. -/
def jsonOr (a b : Option Json) : Option Json :=
  match a with
  | some v => if v.truthy then some v else b
  | none => b

/-- First key in the list whose (optionally case-relaxed) value is truthy. -/
def firstTruthyKey (node : Json) (keys : List String) (lowerToo : Bool) : Option Json :=
  match keys with
  | [] => none
  | k :: rest =>
    match (if lowerToo then jsonOr (node.get k) (node.get (pyLower k)) else node.get k) with
    | some x => if x.truthy then some x else firstTruthyKey node rest lowerToo
    | none => firstTruthyKey node rest lowerToo

def devIdKeys : List String :=
  ["backupUDID", "backupUUID", "uniqueIdentifier", "udid", "deviceID", "deviceUdid"]

def nameKeys : List String :=
  ["deviceName", "deviceDisplayName", "name", "displayName", "productName",
   "modelDisplayName"]

/-- Embedding of `_device_identifier_from`. -/
def device_identifier_from (node : Json) : String :=
  match firstTruthyKey node devIdKeys true with
  | some v => pyStr v
  | none => ""

/-- Embedding of `_device_name_from`. -/
def device_name_from (node : Json) : String :=
  match firstTruthyKey node nameKeys false with
  | some v => pyStr v
  | none => ""

/-! ## `_iter_backups`: the stack-based DFS -/

/-- Timestamp-like keys, in the priority order of the source. -/
def tsKeys : List String :=
  ["snapshotTimestamp", "snapshotDate", "modificationTimestamp", "modificationTime",
   "lastModified", "lastUpdate", "lastUpdateTimestamp", "lastBackupDate", "date"]

/-- Byte-count keys, in the priority order of the source. -/
def sizeKeys : List String :=
  ["sizeInBytes", "snapshotSize", "size", "backupSize", "storageUsed",
   "quotaUsedInBytes", "bytesUsed"]

/-- The inherited traversal context (`context` dict): values are only ever
stored truthy (names, identifiers) or non-`None` (timestamp, size). -/
structure Ctx where
  device_name : Option String := none
  device_identifier : Option String := none
  last_timestamp : Option Json := none
  size : Option Json := none

/-- First key of the list that is present in the node with a non-`None`
value (`key in node and node.get(key) is not None`). -/
def firstPresentNonNull (node : Json) : List String → Option Json
  | [] => none
  | k :: rest =>
    match node.get k with
    | some .null => firstPresentNonNull node rest
    | some v => some v
    | none => firstPresentNonNull node rest

/-- First key of the list that is present in the node (`key in node`),
`None` values included. -/
def firstPresent (node : Json) : List String → Option Json
  | [] => none
  | k :: rest =>
    match node.get k with
    | some v => some v
    | none => firstPresent node rest

/-- The `context.copy()` plus `setdefault` block of `_iter_backups`:
existing entries win, new truthy / non-`None` data is recorded. -/
def updateCtx (node : Json) (ctx : Ctx) : Ctx :=
  let dn := device_name_from node
  let di := device_identifier_from node
  { device_name :=
      match ctx.device_name with
      | some d => some d
      | none => if dn ≠ "" then some dn else none
    device_identifier :=
      match ctx.device_identifier with
      | some d => some d
      | none => if di ≠ "" then some di else none
    last_timestamp :=
      match ctx.last_timestamp with
      | some t => some t
      | none => firstPresentNonNull node tsKeys
    size :=
      match ctx.size with
      | some s => some s
      | none => firstPresentNonNull node sizeKeys }

/-- Is the value pushed onto the traversal stack
(`isinstance(value, (dict, list))`)? -/
def isContainer : Json → Bool
  | .arr _ => true
  | .obj _ => true
  | _ => false

mutual
/-- Structural size of a JSON tree, the loop variant of the DFS. -/
def sizeJ : Json → Nat
  | .arr xs => 1 + sizeArr xs
  | .obj fs => 1 + sizeObj fs
  | _ => 1

def sizeArr : List Json → Nat
  | [] => 0
  | x :: xs => sizeJ x + sizeArr xs

def sizeObj : List (String × Json) → Nat
  | [] => 0
  | kv :: fs => sizeJ kv.2 + sizeObj fs
end

/-- Total size of the nodes still on the stack. -/
def stackMeasure (st : List (Json × Ctx)) : Nat :=
  (st.map fun p => sizeJ p.1).sum

/-- Embedding of the `while stack:` loop of `_iter_backups`, returning the
candidates it yields in order.  The Python stack pops from the end of the
list, so children pushed during an iteration are processed in reverse
order; we keep the stack top at the head and push the reversed child list,
which is the same traversal.  The `fuel` argument only bounds the number of
loop iterations so that the recursion is structural; it is irrelevant as
long as it exceeds the total size of the stacked nodes
(`iterBackupsFuel_congr`), which each iteration strictly decreases, and the
wrapper `iterBackupsLoop` always supplies enough. -/
def iterBackupsFuel : Nat → List (Json × Ctx) → List (Json × Ctx)
  | 0, _ => []
  | _ + 1, [] => []
  | fuel + 1, (node, ctx) :: rest =>
    match node with
    | .obj fields =>
      (if maybe_snapshot (.obj fields) then
          [(Json.obj fields, updateCtx (.obj fields) ctx)]
        else if ¬contains_snapshots (.obj fields) &&
            device_identifier_from (.obj fields) ≠ "" then
          [(Json.obj fields, updateCtx (.obj fields) ctx)]
        else []) ++
      iterBackupsFuel fuel
        ((fields.filterMap fun kv =>
            if isContainer kv.2 then some (kv.2, updateCtx (.obj fields) ctx)
            else none).reverse ++ rest)
    | .arr items =>
      iterBackupsFuel fuel ((items.map fun it => (it, ctx)).reverse ++ rest)
    | _ => iterBackupsFuel fuel rest

/-- The `while stack:` loop run to completion. -/
def iterBackupsLoop (st : List (Json × Ctx)) : List (Json × Ctx) :=
  iterBackupsFuel (stackMeasure st + 1) st

/-- `_iter_backups(payload)`: the loop started on `[(payload, {})]`. -/
def iter_backups (payload : Json) : List (Json × Ctx) :=
  iterBackupsLoop [(payload, {})]

/-! ## `_parse_backups` -/

/-- Identifier keys, in the priority order of the source. -/
def idKeys : List String :=
  ["snapshotID", "snapshotId", "snapshotUUID", "snapshotGuid", "backupUUID",
   "backupUDID", "uniqueIdentifier", "udid", "id"]

/-- Metadata describing a discovered backup (`BackupMeta`). -/
structure BackupMeta where
  identifier : String
  device_name : String
  created_at : String
  approx_size_bytes : Int
  source : String
deriving Repr, DecidableEq

/-- Python string `or`: falls through on the empty string. -/
def strOr (a b : String) : String := if a = "" then b else a

/-- One `metas[identifier] = BackupMeta(...)` step: a Python dict keeps a
replaced key at its original position and appends a new key. -/
def metaInsert (d : List (String × BackupMeta)) (k : String) (v : BackupMeta) :
    List (String × BackupMeta) :=
  if d.any (fun p => p.1 = k) then
    d.map fun p => if p.1 = k then (k, v) else p
  else d ++ [(k, v)]

/-- The body of the `for node, context in self._iter_backups(payload)` loop:
`none` models `continue` (candidate without identifier), `.error` a raised
`OverflowError` escaping `_parse_int`. -/
def candidateMeta (node : Json) (ctx : Ctx) : Except PyExn (Option BackupMeta) := do
  let identifier :=
    match firstTruthyKey node idKeys false with
    | some v => pyStr v
    | none =>
      match ctx.device_identifier with
      | some d => d
      | none => ""
  if identifier = "" then
    return none
  let deviceName :=
    strOr (strOr (device_name_from node)
        (match ctx.device_name with | some d => d | none => ""))
      "Bilinmeyen Cihaz"
  let ts0 :=
    match firstPresent node tsKeys with
    | some v => normalise_timestamp v
    | none => ""
  let timestamp :=
    if ts0 = "" then
      normalise_timestamp (match ctx.last_timestamp with | some t => t | none => .null)
    else ts0
  let size0 ←
    match firstPresent node sizeKeys with
    | some v => parse_int v
    | none => Except.ok 0
  let size ←
    if size0 = 0 then
      parse_int (match ctx.size with | some s => s | none => .null)
    else Except.ok size0
  return some ⟨identifier, deviceName, timestamp, size, "icloud"⟩

/-- Embedding of `_parse_backups`: fold the candidates into the `metas`
dict and return its values. -/
def parse_backups (payload : Json) : Except PyExn (List BackupMeta) := do
  let d ←
    (iter_backups payload).foldlM
      (fun d nc => do
        match ← candidateMeta nc.1 nc.2 with
        | none => pure d
        | some m => pure (metaInsert d m.identifier m))
      ([] : List (String × BackupMeta))
  return d.map (·.2)

/-! ## Policy gate (`policy.py`), error taxonomy, effect traces -/

/-- `PolicyGate` (`policy.py`). -/
structure PolicyGate where
  allow_private_endpoints : Bool
deriving Repr, DecidableEq

/-- The Python exception classes the embedded operations can raise. -/
inductive Err where
  /-- `PolicyViolation` (a `RuntimeError`, *not* a `PermissionError`). -/
  | policyViolation
  /-- `AuthenticationError` from `require_authenticated_service`. -/
  | authRequired
  /-- `AuthenticationError` raised on HTTP 401/403 (stale session). -/
  | staleSession
  /-- `PermissionError`. -/
  | permission
  /-- `FileNotFoundError`. -/
  | notFound
  /-- `NotImplementedError`. -/
  | notImplemented
  /-- `OverflowError` escaping `_parse_int`. -/
  | overflow
  /-- Any other exception (used for modelled fallback outcomes). -/
  | otherExc
deriving Repr, DecidableEq

/-- Embedding of `PolicyGate.require_private_access`. -/
def PolicyGate.require_private_access (g : PolicyGate) (_capability : String) :
    Except Err Unit :=
  if g.allow_private_endpoints then .ok () else .error .policyViolation

/-- Observable side effects of a source operation: the claims only need to
distinguish "no access at all" from "some filesystem / network access". -/
inductive Eff where
  | fsAccess (path : String)
  | netAccess (url : String)
deriving Repr, DecidableEq

/-! ## Download data model (`agents/__init__.py`) -/

structure DownloadItem where
  logical_path : String
  source_path : String
  size_bytes : Int
deriving Repr, DecidableEq

structure DownloadPlan where
  backup : BackupMeta
  total_files : Nat
  total_bytes : Int
  items : List DownloadItem
deriving Repr, DecidableEq

/-- The shared `total_bytes += size; items.append(DownloadItem(...))` loop
of the two `plan_download` implementations. -/
def planFold {α : Type} (mk : α → DownloadItem) (files : List α) :
    List DownloadItem × Int :=
  files.foldl (fun acc f => (acc.1 ++ [mk f], acc.2 + (mk f).size_bytes)) ([], 0)

/-- Generic Python-dict insertion on association lists: replacing a key
keeps its position, a new key is appended. -/
def pyInsert {α : Type} (d : List (String × α)) (k : String) (v : α) :
    List (String × α) :=
  if d.any (fun p => p.1 = k) then
    d.map fun p => if p.1 = k then (k, v) else p
  else d ++ [(k, v)]

/-- Python-dict lookup on association lists. -/
def pyLookup {α : Type} (d : List (String × α)) (k : String) : Option α :=
  (d.find? (fun p => p.1 = k)).map (·.2)

/-- The merge tail of `CloudBackupICloudAPI.list_device_backups`: fallback
records first, then cloud records override by identifier; an empty cloud
list short-circuits to the fallback list verbatim. -/
def merge_backups (fallback_backups cloud_backups : List BackupMeta) :
    List BackupMeta :=
  if cloud_backups.isEmpty then fallback_backups
  else
    let d0 := fallback_backups.foldl (fun d b => pyInsert d b.identifier b) []
    let d1 := cloud_backups.foldl (fun d b => pyInsert d b.identifier b) d0
    d1.map (·.2)

/-! ## MobileSync source (`MobileSyncICloudAPI`)

The host filesystem is an explicit parameter: a list of candidate root
directories, each either absent, unreadable, or holding backup
directories.  `Info.plist` decoding and `stat` calls are modelled by
pre-decoded optional fields (`none` = absent key or failed call). -/

structure SyncFile where
  logical_path : String
  /-- `file.stat().st_size`; `none` models an `OSError` from `stat`. -/
  size : Option Int
deriving Repr, DecidableEq

structure SyncBackupDir where
  name : String
  /-- Was `Info.plist` present and loadable?  (A missing or corrupt plist
  leaves every default in place.) -/
  has_info : Bool := false
  /-- `info.get("Device Name")`. -/
  info_device_name : Option String := none
  /-- `_coerce_datetime(info.get("Last Backup Date"))`; `none` models the
  absent key (which coerces to `""`). -/
  info_last_backup_date : Option String := none
  /-- `info.get("Backup Size")`. -/
  info_backup_size : Option Int := none
  /-- `info.get("Approximate Backup Size")`. -/
  info_approx_backup_size : Option Int := none
  /-- `_coerce_datetime(datetime.fromtimestamp(stat().st_mtime))`; `none`
  models an `OSError` from `stat`. -/
  mtime_iso : Option String := none
  /-- The regular files under the directory (`rglob` then `is_file()`). -/
  files : List SyncFile := []
deriving Repr, DecidableEq

/-- What probing one candidate root yields. -/
inductive RootContents where
  /-- `exists()` / `is_dir()` false, or an `OSError` probing it. -/
  | absent
  /-- `iterdir()` raises `PermissionError`. -/
  | denied
  /-- `iterdir()` raises another `OSError`. -/
  | oserror
  /-- Listable: the immediate subdirectories (non-directory children are
  skipped by the loop and not modelled). -/
  | dirs (ds : List SyncBackupDir)
deriving Repr, DecidableEq

structure SyncRoot where
  path : String
  contents : RootContents
deriving Repr, DecidableEq

/-- Embedding of `_read_plist_metadata`:
`(device_name, created_at, approx_size)`. -/
def read_plist_metadata (d : SyncBackupDir) : String × String × Int :=
  if d.has_info then
    (d.info_device_name.getD d.name,
     d.info_last_backup_date.getD "",
     ((d.info_backup_size.or d.info_approx_backup_size).getD 0))
  else (d.name, "", 0)

/-- `sum(file.stat().st_size for ...)`: a single failing `stat` raises
`OSError` out of the whole sum, which the caller turns into 0. -/
def sumFilesOr0 (files : List SyncFile) : Int :=
  if files.all (fun f => f.size.isSome) then (files.map (fun f => f.size.getD 0)).sum
  else 0

/-- Embedding of the full consumption of `_iter_backup_dirs` (as
`_discover_backups` consumes it): yields all backup directories, tracking
roots denied by permissions; raises `PermissionError` only when nothing
was yielded and at least one root was permission-denied. -/
def iterBackupDirsGo : List SyncRoot → List SyncBackupDir → Bool → List Eff →
    Except Err (List SyncBackupDir) × List Eff
  | [], acc, sawPerm, tr =>
    if acc.isEmpty && sawPerm then (.error .permission, tr) else (.ok acc, tr)
  | r :: rest, acc, sawPerm, tr =>
    match r.contents with
    | .absent => iterBackupDirsGo rest acc sawPerm (tr ++ [.fsAccess r.path])
    | .denied => iterBackupDirsGo rest acc true (tr ++ [.fsAccess r.path])
    | .oserror => iterBackupDirsGo rest acc sawPerm (tr ++ [.fsAccess r.path])
    | .dirs ds => iterBackupDirsGo rest (acc ++ ds) sawPerm (tr ++ [.fsAccess r.path])

def iterBackupDirsFull (roots : List SyncRoot) :
    Except Err (List SyncBackupDir) × List Eff :=
  iterBackupDirsGo roots [] false []

/-- Embedding of `_discover_backups`: a dict keyed by directory name. -/
def discover_backups (dirs : List SyncBackupDir) :
    List (String × (SyncBackupDir × BackupMeta)) :=
  dirs.foldl
    (fun acc d =>
      let m := read_plist_metadata d
      let created := if m.2.1 = "" then d.mtime_iso.getD "" else m.2.1
      let size := if m.2.2 ≤ 0 then sumFilesOr0 d.files else m.2.2
      pyInsert acc d.name (d, BackupMeta.mk d.name m.1 created size "mobilesync"))
    []

/-- The lazy `next(self._iter_backup_dirs())` of `has_any_backups`: roots
are probed until the first backup directory is yielded; exhausting the
generator with only permission errors raises `PermissionError` out of
`next`.  Note the `policy` field of the source is *not consulted*. -/
def hasAnyGo : List SyncRoot → Bool → List Eff → Except Err Bool × List Eff
  | [], sawPerm, tr =>
    if sawPerm then (.error .permission, tr) else (.ok false, tr)
  | r :: rest, sawPerm, tr =>
    match r.contents with
    | .absent => hasAnyGo rest sawPerm (tr ++ [.fsAccess r.path])
    | .denied => hasAnyGo rest true (tr ++ [.fsAccess r.path])
    | .oserror => hasAnyGo rest sawPerm (tr ++ [.fsAccess r.path])
    | .dirs [] => hasAnyGo rest sawPerm (tr ++ [.fsAccess r.path])
    | .dirs (_ :: _) => (.ok true, tr ++ [.fsAccess r.path])

namespace MobileSyncICloudAPI

/-- Embedding of `MobileSyncICloudAPI.has_any_backups`.  The gate parameter
is the object's `policy` field; the method never consults it. -/
def has_any_backups (_policy : PolicyGate) (roots : List SyncRoot) :
    Except Err Bool × List Eff :=
  hasAnyGo roots false []

/-- Embedding of `MobileSyncICloudAPI.list_device_backups`.  The `fallback`
field of the object is passed (as the value its `list_device_backups`
would produce) but — as in the source — never consulted. -/
def list_device_backups (policy : PolicyGate) (roots : List SyncRoot)
    (_fallback : Option (Except Err (List BackupMeta))) :
    Except Err (List BackupMeta) × List Eff :=
  match policy.require_private_access "device_backups" with
  | .error e => (.error e, [])
  | .ok () =>
    match iterBackupDirsFull roots with
    | (.error e, tr) => (.error e, tr)
    | (.ok ds, tr) => (.ok ((discover_backups ds).map fun p => p.2.2), tr)

/-- Embedding of `MobileSyncICloudAPI.plan_download`. -/
def plan_download (policy : PolicyGate) (roots : List SyncRoot)
    (backup_id : String) : Except Err DownloadPlan × List Eff :=
  match policy.require_private_access "device_backups" with
  | .error e => (.error e, [])
  | .ok () =>
    match iterBackupDirsFull roots with
    | (.error e, tr) => (.error e, tr)
    | (.ok ds, tr) =>
      match pyLookup (discover_backups ds) backup_id with
      | none => (.error .notFound, tr)
      | some (bd, meta) =>
        let built :=
          planFold
            (fun (f : SyncFile) =>
              ⟨f.logical_path, bd.name ++ "/" ++ f.logical_path, f.size.getD 0⟩)
            bd.files
        let plan_meta : BackupMeta :=
          { meta with
            approx_size_bytes :=
              if built.2 = 0 then meta.approx_size_bytes else built.2 }
        (.ok ⟨plan_meta, built.1.length, built.2, built.1⟩, tr)

end MobileSyncICloudAPI

/-! ## Mock fixture source (`MockICloudAPI`)

The fixture file resolution and JSON decode (`_load_data`) are external
input; the decoded fixture is the explicit `MockData` parameter. -/

structure MockItem where
  logical_path : String
  source_path : String
  /-- The `size_bytes` entry of the fixture item, when present. -/
  size_bytes : Option Int := none
  /-- `source_path.stat().st_size` when the source file exists. -/
  stat_size : Option Int := none
deriving Repr, DecidableEq

structure MockBackup where
  id : String
  device_name : String
  created_at : String
  approx_size_bytes : Option Int := none
  items : List MockItem := []
deriving Repr, DecidableEq

structure MockData where
  photos : List String := []
  drive : List String := []
  device_backups : List MockBackup := []
deriving Repr, DecidableEq

namespace MockICloudAPI

/-- Embedding of `MockICloudAPI.list_device_backups`. -/
def list_device_backups (policy : PolicyGate) (data : MockData) :
    Except Err (List BackupMeta) :=
  match policy.require_private_access "device_backups" with
  | .error e => .error e
  | .ok () =>
    .ok (data.device_backups.map fun b =>
      ⟨b.id, b.device_name, b.created_at, b.approx_size_bytes.getD 0, "icloud"⟩)

/-- Embedding of `MockICloudAPI.plan_download`. -/
def plan_download (policy : PolicyGate) (data : MockData) (backup_id : String) :
    Except Err DownloadPlan :=
  match policy.require_private_access "device_backups" with
  | .error e => .error e
  | .ok () =>
    match data.device_backups.filter (fun b => b.id = backup_id) with
    | [] => .error .notFound
    | b :: _ =>
      let built :=
        planFold
          (fun (it : MockItem) =>
            ⟨it.logical_path, it.source_path,
             it.size_bytes.getD (it.stat_size.getD 0)⟩)
          b.items
      .ok ⟨⟨b.id, b.device_name, b.created_at,
            b.approx_size_bytes.getD built.2, "icloud"⟩,
           built.1.length, built.2, built.1⟩

end MockICloudAPI

/-! ## CloudBackup remote source (`CloudBackupICloudAPI`)

The authenticated `icloudpy` service and the transport are external: the
service handle is an `Option` (mirroring `require_authenticated_service`)
and the outcome of each of the two fetch attempts (POST then GET) is a
parameter. -/

structure ServiceHandle where
  setup_endpoint : String
deriving Repr, DecidableEq

inductive AttemptOutcome where
  /-- Request succeeded and decoded to a JSON payload. -/
  | success (payload : Json)
  /-- `requests.HTTPError` with the given status. -/
  | httpError (status : Option Int)
  /-- Any other exception: timeout, connection error, decode error… -/
  | failure
deriving Repr, Inhabited

structure RemoteEnv where
  post : AttemptOutcome
  get : AttemptOutcome
deriving Repr, Inhabited

namespace CloudBackupICloudAPI

/-- The second (GET) attempt of `_fetch_payload`, reached when the POST
attempt failed with a collected error. -/
def fetchSecond (url : String) (o : AttemptOutcome) : Except Err Json × List Eff :=
  match o with
  | .success p => (.ok p, [.netAccess url, .netAccess url])
  | .httpError st =>
    if st = some 401 || st = some 403 then
      (.error .staleSession, [.netAccess url, .netAccess url])
    else
      (.ok (Json.obj []), [.netAccess url, .netAccess url])
  | .failure => (.ok (Json.obj []), [.netAccess url, .netAccess url])

/-- Embedding of `_fetch_payload`: POST then GET against
`{setup_endpoint}/backup/list`; HTTP 401/403 raises the stale-session
`AuthenticationError`; any other collected errors are logged and the
method returns an *empty dict*. -/
def fetch_payload (svc : Option ServiceHandle) (env : RemoteEnv) :
    Except Err Json × List Eff :=
  match svc with
  | none => (.error .authRequired, [])
  | some s =>
    let url := s.setup_endpoint ++ "/backup/list"
    match env.post with
    | .success p => (.ok p, [.netAccess url])
    | .httpError st =>
      if st = some 401 || st = some 403 then (.error .staleSession, [.netAccess url])
      else fetchSecond url env.get
    | .failure => fetchSecond url env.get

/-- Embedding of `CloudBackupICloudAPI.list_device_backups`.  The fallback
source is modelled by the outcome of its `list_device_backups()` call:
`PermissionError` is re-raised, any other exception is swallowed
(leaving the fallback list empty). -/
def list_device_backups (policy : PolicyGate) (svc : Option ServiceHandle)
    (env : RemoteEnv) (fallback : Option (Except Err (List BackupMeta) × List Eff)) :
    Except Err (List BackupMeta) × List Eff :=
  match policy.require_private_access "device_backups" with
  | .error e => (.error e, [])
  | .ok () =>
    match fetch_payload svc env with
    | (.error e, tr) => (.error e, tr)
    | (.ok payload, tr) =>
      match parse_backups payload with
      | .error _ => (.error .overflow, tr)
      | .ok cloud =>
        match fallback with
        | none => (.ok (merge_backups [] cloud), tr)
        | some (.error .permission, ftr) => (.error .permission, tr ++ ftr)
        | some (.error _, ftr) => (.ok (merge_backups [] cloud), tr ++ ftr)
        | some (.ok fb, ftr) => (.ok (merge_backups fb cloud), tr ++ ftr)

/-- Embedding of `CloudBackupICloudAPI.plan_download`: a cloud-only
identifier is unsupported; otherwise the call is delegated verbatim to the
fallback (whose outcome is the `fallbackPlan` parameter), and a missing
fallback raises `FileNotFoundError`. -/
def plan_download (policy : PolicyGate) (svc : Option ServiceHandle)
    (env : RemoteEnv) (fallbackPlan : Option (Except Err DownloadPlan × List Eff))
    (backup_id : String) : Except Err DownloadPlan × List Eff :=
  match policy.require_private_access "device_backups" with
  | .error e => (.error e, [])
  | .ok () =>
    match fetch_payload svc env with
    | (.error e, tr) => (.error e, tr)
    | (.ok payload, tr) =>
      match parse_backups payload with
      | .error _ => (.error .overflow, tr)
      | .ok cloud =>
        if cloud.any (fun b => b.identifier = backup_id) then
          (.error .notImplemented, tr)
        else
          match fallbackPlan with
          | none => (.error .notFound, tr)
          | some (r, ftr) => (r, tr ++ ftr)

end CloudBackupICloudAPI

/-! ## Authentication agent (`agents/auth_agent.py`)

The `icloudpy` service object is external: its observable behaviour
(second-factor flags, trusted devices, validation calls, session data) is
a `Service` parameter.  Writing the session-state file is an external side
effect that does not alter the agent's in-memory state. -/

structure Session where
  apple_id : String
  session_token : String
  trusted : Bool
deriving Repr, DecidableEq

structure Device where
  name : String
deriving Repr, DecidableEq

/-- `ICloudPyAPIResponseException` from a validation call. -/
inductive ApiException where
  | responseError
deriving Repr, DecidableEq

structure Service where
  requires_2fa : Bool
  requires_2sa : Bool
  is_trusted_session : Bool
  /-- `session_data.get("session_token")`. -/
  session_token : Option String := none
  /-- `session_data.get("session_id")`. -/
  session_id : Option String := none
  trusted_devices : List Device := []
  validate_2fa_code : String → Except ApiException Bool
  validate_verification_code : Device → String → Except ApiException Bool

/-- The mutable fields of `ICloudPyAuthAgent` (`_service`, `_apple_id`,
`_pending_device`). -/
structure AgentState where
  service : Option Service
  apple_id : Option String
  pending_device : Option Device

/-- The `AuthenticationError` variants `submit_2fa` raises, one per
distinct message in the source. -/
inductive AuthError where
  /-- "2FA kodu boş olamaz." -/
  | emptyCode
  /-- "Aktif oturum bulunamadı…" — no login in progress. -/
  | notAwaitingVerification
  /-- "Doğrulama için kullanılacak cihaz bulunamadı." -/
  | noVerificationDevice
  /-- "2FA doğrulaması başarısız: …" — wrapped API exception. -/
  | apiResponseFailure
  /-- "Girilen 2FA kodu geçersiz." -/
  | invalidVerificationCode
deriving Repr, DecidableEq

/-- Embedding of `_build_session`. -/
def build_session (svc : Service) (apple_id : String) : Session :=
  ⟨apple_id, strOr (svc.session_token.getD "") (svc.session_id.getD ""),
   svc.is_trusted_session⟩

namespace ICloudPyAuthAgent

/-- Embedding of `ICloudPyAuthAgent.submit_2fa`.  Returns the outcome and
the agent state after the call (the method never reassigns its fields;
success also writes the session file, an external effect). -/
def submit_2fa (st : AgentState) (code : String) :
    Except AuthError Session × AgentState :=
  if code = "" then (.error .emptyCode, st)
  else
    match st.service, st.apple_id with
    | some svc, some aid =>
      if aid = "" then (.error .notAwaitingVerification, st)
      else
        let success : Except AuthError Bool :=
          if svc.requires_2fa then
            match svc.validate_2fa_code code with
            | .ok b => .ok b
            | .error _ => .error .apiResponseFailure
          else if svc.requires_2sa then
            match
              (match st.pending_device with
               | some d => some d
               | none =>
                 match svc.trusted_devices with
                 | [] => none
                 | d :: _ => some d) with
            | none => .error .noVerificationDevice
            | some d =>
              match svc.validate_verification_code d code with
              | .ok b => .ok b
              | .error _ => .error .apiResponseFailure
          else .ok true
        match success with
        | .error e => (.error e, st)
        | .ok false => (.error .invalidVerificationCode, st)
        | .ok true => (.ok (build_session svc aid), st)
    | _, _ => (.error .notAwaitingVerification, st)

/-- Embedding of `ICloudPyAuthAgent.load_session`: the source
unconditionally returns `None` ("we always require an explicit login"). -/
def load_session (_st : AgentState) : Option Session := none

end ICloudPyAuthAgent

/-! ## Orchestrator `start_login` (`orchestrator.py`)

The integrity-log records are external side effects; the `auth.login`
call is the external `login` parameter. -/

structure LoginResponse where
  requires2FA : Bool
  session : Option Session
deriving Repr, DecidableEq

structure LoginState where
  requires_two_factor : Bool
  session : Option Session
deriving Repr, DecidableEq

inductive OrchError where
  /-- `ValueError("Apple ID must be provided when starting a new session")`. -/
  | missingAppleId
  /-- `ValueError("Password must be provided when starting a new session")`. -/
  | missingPassword
  /-- A propagated `AuthenticationError` (or other login exception). -/
  | loginFailed (e : AuthError)
deriving Repr, DecidableEq

namespace Orchestrator

/-- Embedding of `Orchestrator.start_login` over the concrete
`ICloudPyAuthAgent`. -/
def start_login (st : AgentState)
    (login : String → String → Except AuthError LoginResponse)
    (apple_id password : Option String) : Except OrchError LoginState :=
  match ICloudPyAuthAgent.load_session st with
  | some existing => .ok ⟨false, some existing⟩
  | none =>
    if (apple_id.getD "") = "" then .error .missingAppleId
    else if (password.getD "") = "" then .error .missingPassword
    else
      match login (apple_id.getD "") (password.getD "") with
      | .error e => .error (.loginFailed e)
      | .ok r => .ok ⟨r.requires2FA, r.session⟩

end Orchestrator

/-! ## Concrete instances used by the claim theorems -/

/-- The spec's example payload for the parser. -/
def payloadC7 : Json :=
  .obj [("snapshotID", .str "S1"), ("deviceName", .str "iPhone"),
        ("snapshotSize", .num 2048), ("snapshotDate", .str "2024-01-01T00:00:00Z")]

/-- A payload whose size field is the string `"inf"`. -/
def payloadInf : Json :=
  .obj [("snapshotID", .str "S1"), ("snapshotSize", .str "inf")]

/-- A fixture-source record with identifier `A`. -/
def metaA : BackupMeta := ⟨"A", "Fixture Device", "2023-01-01T00:00:00", 100, "icloud"⟩

/-- A more specific record sharing identifier `A`. -/
def metaA2 : BackupMeta := ⟨"A", "Local Device", "2024-01-01T00:00:00", 200, "mobilesync"⟩

/-- A record with fresh identifier `B`. -/
def metaB : BackupMeta := ⟨"B", "Local Device", "2024-02-01T00:00:00", 300, "mobilesync"⟩

/-- A MobileSync backup directory named `B` with no `Info.plist`. -/
def msDirB : SyncBackupDir := { name := "B", mtime_iso := some "2024-02-01T00:00:00" }

def msRootB : SyncRoot := ⟨"/roots/mobilesync", .dirs [msDirB]⟩

/-- What discovery of `msRootB` yields. -/
def msListB : List BackupMeta := [⟨"B", "B", "2024-02-01T00:00:00", 0, "mobilesync"⟩]

/-- A readable MobileSync root holding one backup directory. -/
def msRootCX : SyncRoot :=
  ⟨"/Users/u/Library/MobileSync/Backup", .dirs [{ name := "UDID-1" }]⟩

/-- A pending-2FA service that rejects every verification code. -/
def svcRejecting : Service :=
  { requires_2fa := true, requires_2sa := false, is_trusted_session := false,
    session_token := some "tok",
    validate_2fa_code := fun _ => .ok false,
    validate_verification_code := fun _ _ => .ok false }

/-- Agent state mid-flow: login done, second factor pending. -/
def stPending : AgentState := ⟨some svcRejecting, some "user@example.com", none⟩

/-- A service whose session is already trusted and needs no second factor. -/
def svcTrusted : Service :=
  { requires_2fa := false, requires_2sa := false, is_trusted_session := true,
    session_token := some "token-1",
    validate_2fa_code := fun _ => .ok false,
    validate_verification_code := fun _ _ => .ok false }

/-- Agent state after a login that required no second factor. -/
def stTrustedFlow : AgentState := ⟨some svcTrusted, some "user@example.com", none⟩

def svcH : ServiceHandle := ⟨"https://setup.icloud.com/setup/ws/1"⟩

/-- A fixture catalog with one backup of two items. -/
def mockDataW : MockData :=
  { device_backups :=
      [{ id := "M1", device_name := "Dev", created_at := "2024-01-01T00:00:00",
         items := [⟨"f1", "/fixtures/f1", some 10, none⟩,
                   ⟨"f2", "/fixtures/f2", none, some 20⟩] }] }

/-- The plan the mock source produces for `mockDataW`. -/
def planMockW : DownloadPlan :=
  ⟨⟨"M1", "Dev", "2024-01-01T00:00:00", 30, "icloud"⟩, 2, 30,
   [⟨"f1", "/fixtures/f1", 10⟩, ⟨"f2", "/fixtures/f2", 20⟩]⟩

/-- A MobileSync root with one backup directory of two files (one with a
failing `stat`). -/
def msRootW : SyncRoot :=
  ⟨"/roots/w", .dirs [{ name := "W1", files := [⟨"a", some 5⟩, ⟨"b", none⟩] }]⟩

/-- The plan the MobileSync source produces for `msRootW`. -/
def planMsW : DownloadPlan :=
  ⟨⟨"W1", "W1", "", 5, "mobilesync"⟩, 2, 5, [⟨"a", "W1/a", 5⟩, ⟨"b", "W1/b", 0⟩]⟩

/-! ## Lemmas: the traversal loop terminates within its fuel -/

theorem sizeJ_pos (j : Json) : 0 < sizeJ j := by
  cases j <;> simp [sizeJ]

theorem stackMeasure_append (a b : List (Json × Ctx)) :
    stackMeasure (a ++ b) = stackMeasure a + stackMeasure b := by
  simp [stackMeasure]

theorem stackMeasure_reverse (a : List (Json × Ctx)) :
    stackMeasure a.reverse = stackMeasure a := by
  simp [stackMeasure, List.sum_reverse]

theorem stackMeasure_cons (j : Json) (c : Ctx) (rest : List (Json × Ctx)) :
    stackMeasure ((j, c) :: rest) = sizeJ j + stackMeasure rest := by
  simp [stackMeasure]

theorem stackMeasure_lt_cons (j : Json) (c : Ctx) (rest : List (Json × Ctx)) :
    stackMeasure rest < stackMeasure ((j, c) :: rest) := by
  rw [stackMeasure_cons]
  have := sizeJ_pos j
  omega

theorem stackMeasure_pushed_obj (fields : List (String × Json)) (c : Ctx) :
    stackMeasure
        (fields.filterMap fun kv =>
          if isContainer kv.2 then some (kv.2, c) else none) ≤
      sizeObj fields := by
  induction fields with
  | nil => simp [stackMeasure, sizeObj]
  | cons kv fs ih =>
    by_cases h : isContainer kv.2 = true
    · simp only [List.filterMap_cons, h, if_true, if_pos]
      rw [stackMeasure_cons]
      simp only [sizeObj]
      omega
    · simp only [List.filterMap_cons, h, if_false, Bool.false_eq_true,
        not_false_eq_true, if_neg]
      have : 0 < sizeJ kv.2 := sizeJ_pos kv.2
      simp only [sizeObj]
      omega

theorem stackMeasure_pushed_arr (items : List Json) (c : Ctx) :
    stackMeasure (items.map fun it => (it, c)) = sizeArr items := by
  induction items with
  | nil => simp [stackMeasure, sizeArr]
  | cons x xs ih =>
    simp only [List.map_cons]
    rw [stackMeasure_cons, sizeArr, ih]

/-- The fuel of `iterBackupsFuel` does not matter once it exceeds the stack
measure: the loop has finished before it runs out. -/
theorem iterBackupsFuel_congr :
    ∀ (n : Nat) (st : List (Json × Ctx)) (f g : Nat),
      stackMeasure st ≤ n → stackMeasure st < f → stackMeasure st < g →
      iterBackupsFuel f st = iterBackupsFuel g st := by
  intro n
  induction n with
  | zero =>
    intro st f g hn hf hg
    match st, f, g with
    | [], f + 1, g + 1 => rfl
    | [], 0, _ => omega
    | [], _ + 1, 0 => omega
    | (node, ctx) :: rest, _, _ =>
      have := stackMeasure_lt_cons node ctx rest
      omega
  | succ n ih =>
    intro st f g hn hf hg
    match st, f, g with
    | [], f + 1, g + 1 => rfl
    | [], 0, _ => omega
    | [], _ + 1, 0 => omega
    | (node, ctx) :: rest, 0, _ => omega
    | (node, ctx) :: rest, _ + 1, 0 => omega
    | (node, ctx) :: rest, f + 1, g + 1 =>
      have hcons := stackMeasure_cons node ctx rest
      match node with
      | .obj fields =>
        show _ ++ iterBackupsFuel f _ = _ ++ iterBackupsFuel g _
        congr 1
        have hpushed :
            stackMeasure
                ((fields.filterMap fun kv =>
                  if isContainer kv.2 then
                    some (kv.2, updateCtx (.obj fields) ctx)
                  else none).reverse ++ rest) <
              stackMeasure ((Json.obj fields, ctx) :: rest) := by
          rw [stackMeasure_append, stackMeasure_reverse, stackMeasure_cons]
          have h := stackMeasure_pushed_obj fields (updateCtx (.obj fields) ctx)
          simp only [sizeJ]
          omega
        exact ih _ f g (by omega) (by omega) (by omega)
      | .arr items =>
        show iterBackupsFuel f _ = iterBackupsFuel g _
        have hpushed :
            stackMeasure ((items.map fun it => (it, ctx)).reverse ++ rest) <
              stackMeasure ((Json.arr items, ctx) :: rest) := by
          rw [stackMeasure_append, stackMeasure_reverse, stackMeasure_cons,
            stackMeasure_pushed_arr]
          simp only [sizeJ]
          omega
        exact ih _ f g (by omega) (by omega) (by omega)
      | .null =>
        have := stackMeasure_lt_cons Json.null ctx rest
        exact ih rest f g (by omega) (by omega) (by omega)
      | .bool b =>
        have := stackMeasure_lt_cons (Json.bool b) ctx rest
        exact ih rest f g (by omega) (by omega) (by omega)
      | .num m =>
        have := stackMeasure_lt_cons (Json.num m) ctx rest
        exact ih rest f g (by omega) (by omega) (by omega)
      | .str s =>
        have := stackMeasure_lt_cons (Json.str s) ctx rest
        exact ih rest f g (by omega) (by omega) (by omega)

/-! ## Lemmas about the Python-dict model -/

/-- `optOr a b`: `a` unless it is `none` (strict version of `Option.orElse`,
used to state lookup facts). -/
def optOr {α : Type} : Option α → Option α → Option α
  | some a, _ => some a
  | none, b => b

theorem optOr_none_right {α : Type} (a : Option α) : optOr a none = a := by
  cases a <;> rfl

theorem optOr_assoc {α : Type} (a b c : Option α) :
    optOr (optOr a b) c = optOr a (optOr b c) := by
  cases a <;> cases b <;> rfl

theorem find?_append {α : Type} (p : α → Bool) (l1 l2 : List α) :
    (l1 ++ l2).find? p = optOr (l1.find? p) (l2.find? p) := by
  induction l1 with
  | nil => simp [optOr]
  | cons a rest ih =>
    simp only [List.cons_append, List.find?]
    cases hpa : p a with
    | true => rfl
    | false => simpa using ih

theorem pyLookup_cons {α : Type} (p : String × α) (rest : List (String × α))
    (k : String) :
    pyLookup (p :: rest) k = if p.1 = k then some p.2 else pyLookup rest k := by
  simp only [pyLookup, List.find?]
  by_cases h : p.1 = k
  · simp [h]
  · simp [h]

theorem pyLookup_append {α : Type} (d1 d2 : List (String × α)) (k : String) :
    pyLookup (d1 ++ d2) k = optOr (pyLookup d1 k) (pyLookup d2 k) := by
  simp only [pyLookup, find?_append]
  cases d1.find? (fun p => p.1 = k) <;> simp [optOr]

theorem pyLookup_not_mem {α : Type} (d : List (String × α)) (k : String)
    (h : d.any (fun p => p.1 = k) = false) : pyLookup d k = none := by
  induction d with
  | nil => rfl
  | cons p rest ih =>
    simp only [List.any_cons, Bool.or_eq_false_iff, decide_eq_false_iff_not] at h
    rw [pyLookup_cons, if_neg h.1]
    exact ih (by simpa using h.2)

theorem pyLookup_map_replace_self {α : Type} (d : List (String × α)) (k : String)
    (v : α) :
    pyLookup (d.map fun p => if p.1 = k then (k, v) else p) k
      = if d.any (fun p => p.1 = k) then some v else none := by
  induction d with
  | nil => rfl
  | cons p rest ih =>
    simp only [List.map_cons, List.any_cons]
    by_cases h : p.1 = k
    · rw [if_pos h, pyLookup_cons, if_pos rfl]
      simp [h]
    · rw [if_neg h, pyLookup_cons, if_neg h, ih]
      have hd : (decide (p.1 = k)) = false := by simp [h]
      simp only [hd, Bool.false_or]

theorem pyLookup_map_replace_other {α : Type} (d : List (String × α))
    (k k' : String) (v : α) (hk : k' ≠ k) :
    pyLookup (d.map fun p => if p.1 = k then (k, v) else p) k' = pyLookup d k' := by
  induction d with
  | nil => rfl
  | cons p rest ih =>
    simp only [List.map_cons]
    rw [pyLookup_cons, pyLookup_cons]
    by_cases h : p.1 = k
    · rw [if_pos h]
      have h1 : ¬((k, v).1 = k') := fun hh => hk hh.symm
      have h2 : ¬(p.1 = k') := by rw [h]; exact fun hh => hk hh.symm
      rw [if_neg h1, if_neg h2]
      exact ih
    · rw [if_neg h]
      by_cases h3 : p.1 = k'
      · rw [if_pos h3, if_pos h3]
      · rw [if_neg h3, if_neg h3]
        exact ih

/-- Python-dict insertion acts on lookups exactly as expected. -/
theorem pyLookup_pyInsert {α : Type} (d : List (String × α)) (k k' : String)
    (v : α) :
    pyLookup (pyInsert d k v) k' = if k' = k then some v else pyLookup d k' := by
  unfold pyInsert
  by_cases hany : d.any (fun p => p.1 = k)
  · rw [if_pos hany]
    by_cases hk : k' = k
    · subst hk
      rw [pyLookup_map_replace_self, if_pos hany, if_pos rfl]
    · rw [pyLookup_map_replace_other d k k' v hk, if_neg hk]
  · rw [if_neg hany]
    rw [pyLookup_append]
    by_cases hk : k' = k
    · subst hk
      have hf : (d.any fun p => p.1 = k') = false := by
        rw [← Bool.not_eq_true]
        exact hany
      rw [pyLookup_not_mem d k' hf]
      rw [pyLookup_cons, if_pos rfl, if_pos rfl]
      rfl
    · have hnil : pyLookup [(k, v)] k' = none := by
        rw [pyLookup_cons, if_neg (fun hh => hk hh.symm)]
        rfl
      rw [hnil, optOr_none_right, if_neg hk]

/-- Folding a record list into a dict keyed by identifier: lookups see the
*last* occurrence in the list, then fall back to the initial dict. -/
theorem pyLookup_foldl_insert (l : List BackupMeta)
    (d0 : List (String × BackupMeta)) (i : String) :
    pyLookup (l.foldl (fun d b => pyInsert d b.identifier b) d0) i
      = optOr (l.reverse.find? fun b => b.identifier = i) (pyLookup d0 i) := by
  induction l generalizing d0 with
  | nil => simp [optOr]
  | cons b rest ih =>
    simp only [List.foldl_cons, List.reverse_cons]
    rw [ih, find?_append, optOr_assoc]
    congr 1
    rw [pyLookup_pyInsert]
    by_cases hb : b.identifier = i
    · simp [List.find?, hb, optOr]
    · have hib : ¬(i = b.identifier) := fun hh => hb hh.symm
      simp [List.find?, hb, hib, optOr]

/-- Every entry of a dict built by identifier-keyed insertion is keyed by
its record's identifier. -/
def dictInv (d : List (String × BackupMeta)) : Prop :=
  ∀ p ∈ d, p.2.identifier = p.1

theorem dictInv_pyInsert (d : List (String × BackupMeta)) (b : BackupMeta)
    (hd : dictInv d) : dictInv (pyInsert d b.identifier b) := by
  unfold pyInsert
  by_cases hany : d.any (fun p => p.1 = b.identifier)
  · rw [if_pos hany]
    intro p hp
    rcases List.mem_map.mp hp with ⟨q, hq, rfl⟩
    by_cases h : q.1 = b.identifier
    · simp [h]
    · simpa [h] using hd q hq
  · rw [if_neg hany]
    intro p hp
    rcases List.mem_append.mp hp with h | h
    · exact hd p h
    · simp only [List.mem_singleton] at h
      subst h
      rfl

theorem dictInv_foldl (l : List BackupMeta) (d0 : List (String × BackupMeta))
    (hd : dictInv d0) :
    dictInv (l.foldl (fun d b => pyInsert d b.identifier b) d0) := by
  induction l generalizing d0 with
  | nil => exact hd
  | cons b rest ih =>
    exact ih _ (dictInv_pyInsert d0 b hd)

/-- Under the keying invariant, searching the dict's value list by
identifier is dict lookup. -/
theorem find?_values_eq_pyLookup (d : List (String × BackupMeta)) (i : String)
    (hd : dictInv d) :
    (d.map (·.2)).find? (fun b => b.identifier = i) = pyLookup d i := by
  induction d with
  | nil => rfl
  | cons p rest ih =>
    have hkey : p.2.identifier = p.1 := hd p (List.mem_cons_self p rest)
    have hrest : dictInv rest := fun q hq => hd q (List.mem_cons_of_mem p hq)
    by_cases h : p.1 = i
    · simp [pyLookup, List.find?, hkey, h]
    · simp only [List.map_cons, List.find?, pyLookup]
      have : (decide (p.2.identifier = i)) = false := by simp [hkey, h]
      rw [this]
      have : (decide (p.1 = i)) = false := by simp [h]
      rw [this]
      exact ih hrest

/-- With identifier-distinct records, the last match is the first match. -/
theorem find?_reverse_of_nodup (l : List BackupMeta) (i : String)
    (hnd : (l.map (·.identifier)).Nodup) :
    l.reverse.find? (fun b => b.identifier = i)
      = l.find? (fun b => b.identifier = i) := by
  induction l with
  | nil => rfl
  | cons b rest ih =>
    simp only [List.map_cons, List.nodup_cons] at hnd
    simp only [List.reverse_cons]
    rw [find?_append, ih hnd.2]
    by_cases hb : b.identifier = i
    · have hnone : rest.find? (fun b => b.identifier = i) = none := by
        apply List.find?_eq_none.mpr
        intro x hx
        simp only [decide_eq_true_eq]
        intro hxi
        exact hnd.1 (by
          rw [← hb] at hxi
          exact List.mem_map.mpr ⟨x, hx, hxi⟩)
      rw [hnone]
      simp [List.find?, hb, optOr]
    · simp [List.find?, hb, optOr_none_right]

/-! ## Lemmas about the shared plan-building loop -/

theorem planFold_go {α : Type} (mk : α → DownloadItem) (files : List α)
    (acc : List DownloadItem) (t : Int) :
    files.foldl (fun a f => (a.1 ++ [mk f], a.2 + (mk f).size_bytes)) (acc, t)
      = (acc ++ files.map mk,
         t + ((files.map mk).map (·.size_bytes)).sum) := by
  induction files generalizing acc t with
  | nil => simp
  | cons f rest ih =>
    simp only [List.foldl_cons, List.map_cons, List.sum_cons]
    rw [ih, Prod.mk.injEq]
    constructor
    · simp
    · ring

theorem planFold_eq {α : Type} (mk : α → DownloadItem) (files : List α) :
    planFold mk files
      = (files.map mk, ((files.map mk).map (·.size_bytes)).sum) := by
  unfold planFold
  simpa using planFold_go mk files [] 0

/-- The loop invariant of both `plan_download` implementations: the running
byte total is the sum of the accumulated items' sizes, and the item count
is the file count. -/
theorem planFold_totals {α : Type} (mk : α → DownloadItem) (files : List α) :
    (planFold mk files).2 = ((planFold mk files).1.map (·.size_bytes)).sum ∧
      (planFold mk files).1.length = files.length := by
  rw [planFold_eq]
  simp

/-! ## Claim theorems -/

/-- Claim C1, amended: every `list_device_backups` / `plan_download` of the
privileged MobileSync and CloudBackup sources invokes the policy gate
first — with the gate disabled each fails with `PolicyViolation` having
performed no filesystem or network access, and with the gate enabled
`require_private_access` allows the call.  The existence probe
`has_any_backups`, however, never consults the gate (see
`C1_counterexample`). -/
theorem C1_privileged_ops_gate_first (roots : List SyncRoot)
    (fb : Option (Except Err (List BackupMeta))) (bid : String)
    (svc : Option ServiceHandle) (env : RemoteEnv)
    (fbl : Option (Except Err (List BackupMeta) × List Eff))
    (fbp : Option (Except Err DownloadPlan × List Eff)) (cap : String) :
    MobileSyncICloudAPI.list_device_backups ⟨false⟩ roots fb
        = (.error .policyViolation, []) ∧
    MobileSyncICloudAPI.plan_download ⟨false⟩ roots bid
        = (.error .policyViolation, []) ∧
    CloudBackupICloudAPI.list_device_backups ⟨false⟩ svc env fbl
        = (.error .policyViolation, []) ∧
    CloudBackupICloudAPI.plan_download ⟨false⟩ svc env fbp bid
        = (.error .policyViolation, []) ∧
    PolicyGate.require_private_access ⟨true⟩ cap = .ok () :=
  ⟨rfl, rfl, rfl, rfl, rfl⟩

/-- Claim C1, counterexample: with the policy gate disabled,
`has_any_backups` does not fail with `PolicyDenied`: it probes the
filesystem (non-empty effect trace) and reports that backups exist. -/
theorem C1_counterexample :
    MobileSyncICloudAPI.has_any_backups ⟨false⟩ [msRootCX]
        = (.ok true, [.fsAccess "/Users/u/Library/MobileSync/Backup"]) ∧
    (MobileSyncICloudAPI.has_any_backups ⟨false⟩ [msRootCX]).2 ≠ [] :=
  ⟨rfl, by decide⟩

/-- Claim C2, amended: `submit_2fa` performs no local shape validation of
the code.  An empty code fails with the empty-code error; a non-empty code
of any shape is delegated to the service, and when the service rejects it
the call fails with `InvalidVerificationCode` while the pending state is
retained unchanged, so an immediately repeated call is retried against the
same pending flow and fails with `InvalidVerificationCode` again — not
with `NotAwaitingVerification`. -/
theorem C2_invalid_code_keeps_state (svc : Service) (aid code : String)
    (pd : Option Device) (hcode : code ≠ "") (haid : aid ≠ "")
    (h2fa : svc.requires_2fa = true)
    (hrej : svc.validate_2fa_code code = .ok false) :
    ICloudPyAuthAgent.submit_2fa ⟨some svc, some aid, pd⟩ code
        = (.error .invalidVerificationCode, ⟨some svc, some aid, pd⟩) ∧
    (ICloudPyAuthAgent.submit_2fa
        (ICloudPyAuthAgent.submit_2fa ⟨some svc, some aid, pd⟩ code).2 code).1
        = .error .invalidVerificationCode ∧
    (ICloudPyAuthAgent.submit_2fa ⟨some svc, some aid, pd⟩ "").1
        = .error .emptyCode := by
  have h1 : ICloudPyAuthAgent.submit_2fa ⟨some svc, some aid, pd⟩ code
      = (.error .invalidVerificationCode, ⟨some svc, some aid, pd⟩) := by
    unfold ICloudPyAuthAgent.submit_2fa
    rw [if_neg hcode]
    simp only [if_neg haid, h2fa, if_true, hrej]
  refine ⟨h1, ?_, rfl⟩
  rw [h1]
  rw [h1]

/-- Claim C2, counterexample: after `submit_2fa "12a456"` fails, the
pending service is still installed (the state was not reset to
`Unauthenticated`) and an immediately repeated call fails with
`InvalidVerificationCode` once more, not `NotAwaitingVerification`. -/
theorem C2_counterexample :
    (ICloudPyAuthAgent.submit_2fa stPending "12a456").1
        = .error .invalidVerificationCode ∧
    (ICloudPyAuthAgent.submit_2fa stPending "12a456").2.service ≠ none ∧
    (ICloudPyAuthAgent.submit_2fa
        (ICloudPyAuthAgent.submit_2fa stPending "12a456").2 "12a456").1
        = .error .invalidVerificationCode := by
  refine ⟨rfl, ?_, rfl⟩
  intro h
  exact Option.noConfusion h

/-- Claim C2, witness for `C2_invalid_code_keeps_state`. -/
theorem C2_witness :
    ("12a456" : String) ≠ "" ∧ ("user@example.com" : String) ≠ "" ∧
    svcRejecting.requires_2fa = true ∧
    svcRejecting.validate_2fa_code "12a456" = .ok false ∧
    (ICloudPyAuthAgent.submit_2fa ⟨some svcRejecting, some "user@example.com", none⟩ "12a456"
        = (.error .invalidVerificationCode,
           ⟨some svcRejecting, some "user@example.com", none⟩) ∧
      (ICloudPyAuthAgent.submit_2fa
          (ICloudPyAuthAgent.submit_2fa
            ⟨some svcRejecting, some "user@example.com", none⟩ "12a456").2 "12a456").1
          = .error .invalidVerificationCode ∧
      (ICloudPyAuthAgent.submit_2fa
          ⟨some svcRejecting, some "user@example.com", none⟩ "").1
          = .error .emptyCode) :=
  ⟨by decide, by decide, rfl, rfl,
   C2_invalid_code_keeps_state svcRejecting "user@example.com" "12a456" none
     (by decide) (by decide) rfl rfl⟩

/-- Claim C5, amended: `load_session` unconditionally returns `none`
(password-less session restoration is not implemented), so the
orchestrator's `start_login` never reuses a prior session: with no Apple
ID supplied it always fails with the missing-Apple-ID `ValueError`.  Both
operations are pure — they never block and touch no network. -/
theorem C5_no_session_restoration (st : AgentState)
    (login : String → String → Except AuthError LoginResponse)
    (pw : Option String) :
    ICloudPyAuthAgent.load_session st = none ∧
    Orchestrator.start_login st login none pw = .error .missingAppleId ∧
    Orchestrator.start_login st login (some "") pw = .error .missingAppleId :=
  ⟨rfl, rfl, rfl⟩

/-- Claim C5, counterexample: a flow on this agent completes with a
*trusted* session, yet `load_session` on the resulting agent state still
returns `none` rather than that session. -/
theorem C5_counterexample :
    (ICloudPyAuthAgent.submit_2fa stTrustedFlow "123456").1
        = .ok ⟨"user@example.com", "token-1", true⟩ ∧
    ICloudPyAuthAgent.load_session
        (ICloudPyAuthAgent.submit_2fa stTrustedFlow "123456").2 = none :=
  ⟨rfl, rfl⟩

/-- Claim C6, amended: `submit_2fa` fails with `NotAwaitingVerification`
for a non-empty code exactly when no login flow is active (`_service` is
unset); from a Trusted state — login completed with no pending second
factor — it does *not* fail: it rebuilds and returns the session. -/
theorem C6_completeVerification_states (code : String) (pd pd2 : Option Device)
    (ai : Option String) (svc : Service) (aid : String)
    (hcode : code ≠ "") (haid : aid ≠ "")
    (h2fa : svc.requires_2fa = false) (h2sa : svc.requires_2sa = false) :
    ICloudPyAuthAgent.submit_2fa ⟨none, ai, pd2⟩ code
        = (.error .notAwaitingVerification, ⟨none, ai, pd2⟩) ∧
    ICloudPyAuthAgent.submit_2fa ⟨some svc, some aid, pd⟩ code
        = (.ok (build_session svc aid), ⟨some svc, some aid, pd⟩) := by
  constructor
  · unfold ICloudPyAuthAgent.submit_2fa
    rw [if_neg hcode]
  · unfold ICloudPyAuthAgent.submit_2fa
    rw [if_neg hcode]
    simp only [if_neg haid, h2fa, h2sa]
    rfl

/-- Claim C6, witness for `C6_completeVerification_states`. -/
theorem C6_witness :
    ("123456" : String) ≠ "" ∧ ("user@example.com" : String) ≠ "" ∧
    svcTrusted.requires_2fa = false ∧ svcTrusted.requires_2sa = false ∧
    (ICloudPyAuthAgent.submit_2fa ⟨none, some "x", none⟩ "123456"
        = (.error .notAwaitingVerification, ⟨none, some "x", none⟩) ∧
      ICloudPyAuthAgent.submit_2fa
          ⟨some svcTrusted, some "user@example.com", none⟩ "123456"
        = (.ok (build_session svcTrusted "user@example.com"),
           ⟨some svcTrusted, some "user@example.com", none⟩)) :=
  ⟨by decide, by decide, rfl, rfl,
   C6_completeVerification_states "123456" none none (some "x") svcTrusted
     "user@example.com" (by decide) (by decide) rfl rfl⟩

/-- Claim C6, counterexample: from the Trusted state (login already
completed, no pending second factor) `submit_2fa` returns a session
instead of failing with `NotAwaitingVerification`. -/
theorem C6_counterexample :
    (ICloudPyAuthAgent.submit_2fa
        ⟨some svcTrusted, some "user@example.com", none⟩ "000000").1
      = .ok ⟨"user@example.com", "token-1", true⟩ :=
  rfl

/-- Claim C8: the claim says parsing never raises, and the code clearly
intends that (`_normalise_timestamp` even catches `OverflowError`), but
`_parse_int` catches only `ValueError`/`TypeError`, so a size field of
`"inf"` makes `int(float("inf"))` raise an uncaught `OverflowError` that
escapes `_parse_backups` and `list_device_backups`. -/
theorem C8_parse_raises_overflow :
    parse_int (.str "inf") = .error .overflowError ∧
    parse_backups payloadInf = .error .overflowError ∧
    (CloudBackupICloudAPI.list_device_backups ⟨true⟩ (some svcH)
        ⟨.success payloadInf, .failure⟩ none).1 = .error .overflow :=
  ⟨rfl, rfl, rfl⟩

/-- Claim C3, amended: the CloudBackup variant's `list_device_backups`
merges cloud records over fallback records keyed by identifier — for every
identifier the merged listing holds the cloud entry when the cloud has
one, else the fallback entry; in particular records `{A', B}` merged over
a fallback holding `A` with the same identifier list exactly `{A', B}`.
The MobileSync variant, although constructible with a fallback, ignores it
entirely in `list_device_backups`. -/
theorem C3_merge_semantics (fb cloud : List BackupMeta) (i : String)
    (hfb : (fb.map (·.identifier)).Nodup)
    (hcloud : (cloud.map (·.identifier)).Nodup) :
    (merge_backups fb cloud).find? (fun b => b.identifier = i)
        = optOr (cloud.find? fun b => b.identifier = i)
            (fb.find? fun b => b.identifier = i) ∧
    merge_backups [metaA] [metaA2, metaB] = [metaA2, metaB] ∧
    (∀ (policy : PolicyGate) (roots : List SyncRoot)
        (f1 f2 : Option (Except Err (List BackupMeta))),
      MobileSyncICloudAPI.list_device_backups policy roots f1
        = MobileSyncICloudAPI.list_device_backups policy roots f2) := by
  refine ⟨?_, by decide, fun _ _ _ _ => rfl⟩
  by_cases hc : cloud.isEmpty
  · have hcn : cloud = [] := List.isEmpty_iff.mp hc
    subst hcn
    simp only [merge_backups, List.isEmpty_nil, if_true, List.find?_nil, optOr]
  · simp only [merge_backups, if_neg hc]
    have hinv :
        dictInv ((cloud.foldl (fun d b => pyInsert d b.identifier b)
          (fb.foldl (fun d b => pyInsert d b.identifier b) []))) :=
      dictInv_foldl _ _ (dictInv_foldl _ _ (fun p hp => absurd hp (List.not_mem_nil p)))
    rw [find?_values_eq_pyLookup _ i hinv]
    rw [pyLookup_foldl_insert, pyLookup_foldl_insert]
    rw [show pyLookup ([] : List (String × BackupMeta)) i = none from rfl]
    rw [optOr_none_right]
    rw [find?_reverse_of_nodup cloud i hcloud, find?_reverse_of_nodup fb i hfb]

/-- Claim C3, witness for `C3_merge_semantics`. -/
theorem C3_witness :
    (([metaA].map (·.identifier)).Nodup ∧
      ([metaA2, metaB].map (·.identifier)).Nodup) ∧
    ((merge_backups [metaA] [metaA2, metaB]).find? (fun b => b.identifier = "A")
        = optOr ([metaA2, metaB].find? fun b => b.identifier = "A")
            ([metaA].find? fun b => b.identifier = "A") ∧
      merge_backups [metaA] [metaA2, metaB] = [metaA2, metaB] ∧
      (∀ (policy : PolicyGate) (roots : List SyncRoot)
          (f1 f2 : Option (Except Err (List BackupMeta))),
        MobileSyncICloudAPI.list_device_backups policy roots f1
          = MobileSyncICloudAPI.list_device_backups policy roots f2)) :=
  ⟨⟨by decide, by decide⟩,
   C3_merge_semantics [metaA] [metaA2, metaB] "A" (by decide) (by decide)⟩

/-- Claim C3, counterexample: a MobileSync source over a fixture fallback
holding record `A` lists only its own records — the fallback-only
identifier `A` is *not* retained, so the universal merge claim fails for
this variant. -/
theorem C3_counterexample :
    (MobileSyncICloudAPI.list_device_backups ⟨true⟩ [msRootB]
        (some (.ok [metaA]))).1 = .ok msListB ∧
    msListB.all (fun b => b.identifier ≠ metaA.identifier) = true :=
  ⟨rfl, by decide⟩

/-- Claim C4, amended: during the backup-list fetch only HTTP 401/403 is
surfaced, as the stale-session authentication error; every other
transport failure on both attempts is swallowed — `_fetch_payload`
returns an empty payload, so `list_device_backups` silently degrades to
the fallback results (empty with no fallback) and `plan_download`
delegates to the fallback as if the identifier were simply absent
remotely. -/
theorem C4_transport_swallowed (s : ServiceHandle) (g : AttemptOutcome)
    (fbl : Option (Except Err (List BackupMeta) × List Eff))
    (r : Except Err DownloadPlan × List Eff) (bid : String) :
    CloudBackupICloudAPI.list_device_backups ⟨true⟩ (some s)
        ⟨.httpError (some 401), g⟩ fbl
        = (.error .staleSession, [.netAccess (s.setup_endpoint ++ "/backup/list")]) ∧
    CloudBackupICloudAPI.list_device_backups ⟨true⟩ (some s)
        ⟨.httpError (some 403), g⟩ fbl
        = (.error .staleSession, [.netAccess (s.setup_endpoint ++ "/backup/list")]) ∧
    CloudBackupICloudAPI.fetch_payload (some s) ⟨.failure, .failure⟩
        = (.ok (Json.obj []),
           [.netAccess (s.setup_endpoint ++ "/backup/list"),
            .netAccess (s.setup_endpoint ++ "/backup/list")]) ∧
    CloudBackupICloudAPI.list_device_backups ⟨true⟩ (some s)
        ⟨.failure, .failure⟩ none
        = (.ok [],
           [.netAccess (s.setup_endpoint ++ "/backup/list"),
            .netAccess (s.setup_endpoint ++ "/backup/list")]) ∧
    CloudBackupICloudAPI.plan_download ⟨true⟩ (some s)
        ⟨.failure, .failure⟩ (some r) bid
        = (r.1,
           [.netAccess (s.setup_endpoint ++ "/backup/list"),
            .netAccess (s.setup_endpoint ++ "/backup/list")] ++ r.2) :=
  ⟨rfl, rfl, rfl, rfl, rfl⟩

/-- Claim C4, counterexample: when both fetch attempts fail with a
non-HTTP transport error (for example a timeout), `list_device_backups`
does not surface any error — it silently returns an empty backup list. -/
theorem C4_counterexample :
    (CloudBackupICloudAPI.list_device_backups ⟨true⟩ (some svcH)
        ⟨.failure, .failure⟩ none).1 = .ok [] ∧
    ∀ e : Err, (CloudBackupICloudAPI.list_device_backups ⟨true⟩ (some svcH)
        ⟨.failure, .failure⟩ none).1 ≠ .error e := by
  refine ⟨rfl, fun e h => ?_⟩
  rw [show (CloudBackupICloudAPI.list_device_backups ⟨true⟩ (some svcH)
      ⟨.failure, .failure⟩ none).1 = .ok [] from rfl] at h
  exact Except.noConfusion h

/-- Claim C9: every plan either source's `plan_download` produces satisfies
`total_bytes = Σ items.size_bytes` and `total_files = |items|`. -/
theorem C9_plan_totals (policy : PolicyGate) (data : MockData)
    (bid bid2 : String) (roots : List SyncRoot) (plan plan2 : DownloadPlan)
    (h1 : MockICloudAPI.plan_download policy data bid = .ok plan)
    (h2 : (MobileSyncICloudAPI.plan_download policy roots bid2).1 = .ok plan2) :
    (plan.total_bytes = (plan.items.map (·.size_bytes)).sum ∧
      plan.total_files = plan.items.length) ∧
    (plan2.total_bytes = (plan2.items.map (·.size_bytes)).sum ∧
      plan2.total_files = plan2.items.length) := by
  constructor
  · unfold MockICloudAPI.plan_download at h1
    split at h1
    · exact absurd h1 (by simp)
    · split at h1
      · exact absurd h1 (by simp)
      · injection h1 with h
        subst h
        exact ⟨(planFold_totals _ _).1, rfl⟩
  · simp only [MobileSyncICloudAPI.plan_download] at h2
    split at h2
    · exact absurd h2 (by simp)
    · split at h2
      · exact absurd h2 (by simp)
      · split at h2
        · exact absurd h2 (by simp)
        · injection h2 with h
          subst h
          exact ⟨(planFold_totals _ _).1, rfl⟩

/-- Claim C9, witness for `C9_plan_totals`. -/
theorem C9_witness :
    MockICloudAPI.plan_download ⟨true⟩ mockDataW "M1" = .ok planMockW ∧
    (MobileSyncICloudAPI.plan_download ⟨true⟩ [msRootW] "W1").1 = .ok planMsW ∧
    ((planMockW.total_bytes = (planMockW.items.map (·.size_bytes)).sum ∧
        planMockW.total_files = planMockW.items.length) ∧
      (planMsW.total_bytes = (planMsW.items.map (·.size_bytes)).sum ∧
        planMsW.total_files = planMsW.items.length)) :=
  ⟨rfl, rfl,
   C9_plan_totals ⟨true⟩ mockDataW "M1" "W1" [msRootW] planMockW planMsW
     rfl rfl⟩

/-- Claim C10: a `PermissionError` raised by the fallback's
`list_device_backups` propagates out of the CloudBackup listing; any other
fallback exception is swallowed and the listing returns only the
remote-derived records (empty when there are none). -/
theorem C10_fallback_error_policy (svc : Option ServiceHandle)
    (env : RemoteEnv) (payload : Json) (cloud fb : List BackupMeta)
    (tr ftr : List Eff) (e : Err)
    (hfetch : CloudBackupICloudAPI.fetch_payload svc env = (.ok payload, tr))
    (hparse : parse_backups payload = .ok cloud)
    (hne : e ≠ .permission) :
    CloudBackupICloudAPI.list_device_backups ⟨true⟩ svc env
        (some (.error .permission, ftr)) = (.error .permission, tr ++ ftr) ∧
    CloudBackupICloudAPI.list_device_backups ⟨true⟩ svc env
        (some (.error e, ftr)) = (.ok (merge_backups [] cloud), tr ++ ftr) ∧
    CloudBackupICloudAPI.list_device_backups ⟨true⟩ svc env
        (some (.ok fb, ftr)) = (.ok (merge_backups fb cloud), tr ++ ftr) := by
  have hred : ∀ fbo,
      CloudBackupICloudAPI.list_device_backups ⟨true⟩ svc env fbo
        = (match fbo with
           | none => (.ok (merge_backups [] cloud), tr)
           | some (.error .permission, ftr) => (.error .permission, tr ++ ftr)
           | some (.error _, ftr) => (.ok (merge_backups [] cloud), tr ++ ftr)
           | some (.ok fb, ftr) => (.ok (merge_backups fb cloud), tr ++ ftr)) := by
    intro fbo
    unfold CloudBackupICloudAPI.list_device_backups
    rw [hfetch]
    simp [hparse, PolicyGate.require_private_access]
  refine ⟨hred _, ?_, hred _⟩
  cases e
  case permission => exact absurd rfl hne
  all_goals exact hred _

/-- Claim C7, amended: the example payload parses to exactly the expected
record; the numeric timestamp `1700000000000` is read as milliseconds and
normalised to `2023-11-14T22:13:20+00:00`; an ISO string with a trailing
`Z` is normalised to an explicit `+00:00` offset; every integer timestamp
above `10^12` *whose millisecond value stays within the representable
`datetime` range* is divided by 1000 and converted as epoch seconds with
an explicit UTC offset (out-of-range values fall back to their decimal
string — see `C7_counterexample`); and a string that parses neither as ISO
nor as digits is passed through (stripped) rather than dropped. -/
theorem C7_parser_normalisation (n : Int) (s : String)
    (hn1 : n > 1000000000000) (hn2 : n / 1000 ≤ maxEpochSecond)
    (hs1 : pyStrip s = s) (hs2 : s ≠ "")
    (hs3 : fromIso (replaceZ s) = none) (hs4 : allDigits s = false) :
    parse_backups payloadC7
        = .ok [⟨"S1", "iPhone", "2024-01-01T00:00:00+00:00", 2048, "icloud"⟩] ∧
    normalise_timestamp (.num 1700000000000) = "2023-11-14T22:13:20+00:00" ∧
    normalise_timestamp (.str "2031-07-15T10:20:30Z")
        = "2031-07-15T10:20:30+00:00" ∧
    (∃ dt : PyDateTime,
        fromTimestampUTC (n / 1000) (((n % 1000) * 1000).toNat) = some dt ∧
        dt.offset = some 0 ∧
        normalise_timestamp (.num n) = isoFormat dt) ∧
    normalise_timestamp (.str s) = s := by
  refine ⟨rfl, rfl, rfl, ?_, ?_⟩
  · have hlow : minEpochSecond ≤ n / 1000 := by
      unfold minEpochSecond
      omega
    have hcond :
        (decide (n / 1000 < minEpochSecond) ||
          decide (maxEpochSecond < n / 1000)) = false := by
      simp only [Bool.or_eq_false_iff, decide_eq_false_iff_not, not_lt]
      exact ⟨hlow, hn2⟩
    have hex : ∃ dt : PyDateTime,
        fromTimestampUTC (n / 1000) (((n % 1000) * 1000).toNat) = some dt ∧
          dt.offset = some 0 := by
      unfold fromTimestampUTC
      simp only [hcond]
      exact ⟨_, rfl, rfl⟩
    obtain ⟨dt, hdt, hoff⟩ := hex
    refine ⟨dt, hdt, hoff, ?_⟩
    have hnt : normalise_timestamp (.num n) = normaliseEpoch n := rfl
    rw [hnt]
    simp only [normaliseEpoch, if_pos hn1, hdt]
  · unfold normalise_timestamp
    simp only [hs1, if_neg hs2, hs3, hs4]
    rfl

/-- Claim C7, witness for `C7_parser_normalisation`. -/
theorem C7_witness :
    ((1700000000500 : Int) > 1000000000000 ∧
      (1700000000500 : Int) / 1000 ≤ maxEpochSecond ∧
      pyStrip "garbage" = "garbage" ∧ ("garbage" : String) ≠ "" ∧
      fromIso (replaceZ "garbage") = none ∧ allDigits "garbage" = false) ∧
    (parse_backups payloadC7
        = .ok [⟨"S1", "iPhone", "2024-01-01T00:00:00+00:00", 2048, "icloud"⟩] ∧
      normalise_timestamp (.num 1700000000000) = "2023-11-14T22:13:20+00:00" ∧
      normalise_timestamp (.str "2031-07-15T10:20:30Z")
          = "2031-07-15T10:20:30+00:00" ∧
      (∃ dt : PyDateTime,
          fromTimestampUTC ((1700000000500 : Int) / 1000)
              ((((1700000000500 : Int) % 1000) * 1000).toNat) = some dt ∧
          dt.offset = some 0 ∧
          normalise_timestamp (.num 1700000000500) = isoFormat dt) ∧
      normalise_timestamp (.str "garbage") = "garbage") :=
  ⟨⟨by decide, by decide, rfl, by decide, rfl, rfl⟩,
   C7_parser_normalisation 1700000000500 "garbage" (by decide) (by decide) rfl
     (by decide) rfl rfl⟩

/-- Claim C7, counterexample: for the numeric timestamp `3·10^14`
(milliseconds beyond year 9999) the claim's "divided by 1000 and converted
as epoch seconds with an explicit UTC offset" fails — `fromtimestamp`
raises, the exception is caught, and the raw decimal string
`"300000000000000"` is returned instead. -/
theorem C7_counterexample :
    normalise_timestamp (.num 300000000000000) = "300000000000000" ∧
    ¬∃ dt : PyDateTime,
        fromTimestampUTC ((300000000000000 : Int) / 1000)
            ((((300000000000000 : Int) % 1000) * 1000).toNat) = some dt ∧
          dt.offset = some 0 ∧
          normalise_timestamp (.num 300000000000000) = isoFormat dt := by
  refine ⟨rfl, ?_⟩
  rintro ⟨dt, h1, -, -⟩
  rw [show fromTimestampUTC ((300000000000000 : Int) / 1000)
      ((((300000000000000 : Int) % 1000) * 1000).toNat)
      = (none : Option PyDateTime) from rfl] at h1
  exact Option.noConfusion h1

/-- Claim C10, witness for `C10_fallback_error_policy`. -/
theorem C10_witness :
    CloudBackupICloudAPI.fetch_payload (some svcH) ⟨.success (Json.obj []), .failure⟩
        = (.ok (Json.obj []),
           [.netAccess "https://setup.icloud.com/setup/ws/1/backup/list"]) ∧
    parse_backups (Json.obj []) = .ok [] ∧
    (Err.otherExc ≠ Err.permission) ∧
    (CloudBackupICloudAPI.list_device_backups ⟨true⟩ (some svcH)
        ⟨.success (Json.obj []), .failure⟩ (some (.error .permission, []))
        = (.error .permission,
           [.netAccess "https://setup.icloud.com/setup/ws/1/backup/list"] ++ []) ∧
      CloudBackupICloudAPI.list_device_backups ⟨true⟩ (some svcH)
          ⟨.success (Json.obj []), .failure⟩ (some (.error .otherExc, []))
        = (.ok (merge_backups [] []),
           [.netAccess "https://setup.icloud.com/setup/ws/1/backup/list"] ++ []) ∧
      CloudBackupICloudAPI.list_device_backups ⟨true⟩ (some svcH)
          ⟨.success (Json.obj []), .failure⟩ (some (.ok [metaA], []))
        = (.ok (merge_backups [metaA] []),
           [.netAccess "https://setup.icloud.com/setup/ws/1/backup/list"] ++ [])) :=
  ⟨rfl, rfl, by decide,
   C10_fallback_error_policy (some svcH) ⟨.success (Json.obj []), .failure⟩
     (Json.obj []) [] [metaA]
     [.netAccess "https://setup.icloud.com/setup/ws/1/backup/list"] []
     .otherExc rfl rfl (by decide)⟩

end ICloudMA
